import Mathlib

/-!
A shallow embedding of cmd/lotus-storage-miner/market.go: the set-ask,
get-ask and deals import-data command actions, together with the library
routines they call (docker/go-units RAMInBytes, Go time.ParseDuration and
time.Duration.String).  Remote services (chain head, actor sector size,
the market service) are modelled as explicit inputs, and the effect of a
command is an inductive result recording either the failure or the exact
call handed to the market service.
-/

namespace LotusMarket

/-- Longest digit prefix of a character list, together with the remainder. -/
def takeDigits : List Char → List Char × List Char
  | [] => ([], [])
  | c :: cs =>
    if c.isDigit then
      let (d, r) := takeDigits cs
      (c :: d, r)
    else ([], c :: cs)

/-- Numeric value of a digit run. -/
def digitsVal (ds : List Char) : Nat :=
  ds.foldl (fun a c => a * 10 + (c.toNat - 48)) 0

/-- Binary unit multipliers of the go-units size grammar (binaryMap in
docker/go-units size.go; RAMInBytes treats the decimal prefixes as powers
of 1024). -/
def binaryUnit : Char → Option Nat
  | 'k' => some 1024
  | 'K' => some 1024
  | 'm' => some (1024 ^ 2)
  | 'M' => some (1024 ^ 2)
  | 'g' => some (1024 ^ 3)
  | 'G' => some (1024 ^ 3)
  | 't' => some (1024 ^ 4)
  | 'T' => some (1024 ^ 4)
  | 'p' => some (1024 ^ 5)
  | 'P' => some (1024 ^ 5)
  | _ => none

/-- Models units.RAMInBytes of docker/go-units v0.4.0, the size parser used
by set-ask for min-piece-size and max-piece-size.  The grammar is the size
regex: digits, optional fraction groups, one optional space, an optional
binary prefix character, an optional i, an optional B, end of string.  A
magnitude with more than one fraction group matches the regex but then
fails strconv.ParseFloat; both paths are an error here.  The float64
product and the final int64 conversion are modelled as exact rational
arithmetic truncated toward zero (the magnitude is non-negative, so this
is floor division). -/
def ramInBytes (s : String) : Except String Int :=
  let cs := s.data
  let (ip, r1) := takeDigits cs
  if ip.isEmpty then .error "invalid size"
  else
    let fracPart : Option (List Char × List Char) :=
      match r1 with
      | '.' :: rest =>
        let (fp, r2) := takeDigits rest
        if fp.isEmpty then none
        else
          match r2 with
          | '.' :: _ => none
          | _ => some (fp, r2)
      | _ => some ([], r1)
    match fracPart with
    | none => .error "invalid size"
    | some (fp, r2) =>
      let r3 := match r2 with
        | ' ' :: rest => rest
        | _ => r2
      let (mul, r4) := match r3 with
        | c :: rest =>
          match binaryUnit c with
          | some m => (m, rest)
          | none => (1, c :: rest)
        | [] => (1, ([] : List Char))
      let r5 := match r4 with
        | 'i' :: rest => rest
        | 'I' :: rest => rest
        | _ => r4
      let r6 := match r5 with
        | 'b' :: rest => rest
        | 'B' :: rest => rest
        | _ => r5
      if r6.isEmpty then
        let scale := 10 ^ fp.length
        .ok (((digitsVal ip * scale + digitsVal fp) * mul / scale : Nat) : Int)
      else .error "invalid size"

/-- Nanosecond multiplier of a Go duration unit (the unitMap of Go time,
including both micro-sign spellings). -/
def durUnitNs : List Char → Option Nat
  | ['n', 's'] => some 1
  | ['u', 's'] => some 1000
  | ['µ', 's'] => some 1000
  | ['μ', 's'] => some 1000
  | ['m', 's'] => some 1000000
  | ['s'] => some 1000000000
  | ['m'] => some 60000000000
  | ['h'] => some 3600000000000
  | _ => none

/-- Models leadingInt of Go time: accumulate a digit run, failing (none)
when the accumulator would pass 2^63. -/
def leadingIntAux : Nat → List Char → Option (Nat × List Char)
  | x, [] => some (x, [])
  | x, c :: cs =>
    if c.isDigit then
      if x > 2 ^ 63 / 10 then none
      else
        let y := x * 10 + (c.toNat - 48)
        if y > 2 ^ 63 then none else leadingIntAux y cs
    else some (x, c :: cs)

/-- Models leadingFraction of Go time: accumulate fraction digits and a
power-of-ten scale, silently dropping digits once the accumulator would
overflow. -/
def leadingFracAux : Nat → Nat → Bool → List Char → Nat × Nat × List Char
  | x, scale, _, [] => (x, scale, [])
  | x, scale, ovf, c :: cs =>
    if c.isDigit then
      if ovf then leadingFracAux x scale true cs
      else if x > (2 ^ 63 - 1) / 10 then leadingFracAux x scale true cs
      else
        let y := x * 10 + (c.toNat - 48)
        if y > 2 ^ 63 then leadingFracAux x scale true cs
        else leadingFracAux y (scale * 10) false cs
    else (x, scale, c :: cs)

/-- Longest prefix of characters that are neither a digit nor a dot
(the unit scan of Go time.ParseDuration), with the remainder. -/
def takeUnit : List Char → List Char × List Char
  | [] => ([], [])
  | c :: cs =>
    if c = '.' ∨ c.isDigit then ([], c :: cs)
    else
      let (u, r) := takeUnit cs
      (c :: u, r)

/-- Models the per-component loop of Go time.ParseDuration: each round
consumes an integer part, an optional fraction, and a unit, accumulating
nanoseconds in d with the same overflow guards as the Go code.  The
fraction contribution uint64(float64(f) * (float64(unit) / scale)) is
modelled as f * unit / scale truncated.  Fuel bounds the recursion; every
round consumes at least one character, so length + 1 fuel always
suffices. -/
def parseDurLoop : Nat → Nat → List Char → Except String Nat
  | _, d, [] => .ok d
  | 0, _, _ :: _ => .error "invalid duration"
  | fuel + 1, d, c :: rest =>
    let s := c :: rest
    if ¬ (c = '.' ∨ c.isDigit) then .error "invalid duration"
    else
      match leadingIntAux 0 s with
      | none => .error "invalid duration"
      | some (v, s1) =>
        let pre : Bool := s1.length != s.length
        let (f, scale, s2, post) :=
          match s1 with
          | '.' :: fr =>
            let (f, scale, r) := leadingFracAux 0 1 false fr
            (f, scale, r, (r.length != fr.length : Bool))
          | _ => (0, 1, s1, false)
        if !pre && !post then .error "invalid duration"
        else
          let (u, s3) := takeUnit s2
          if u.isEmpty then .error "missing unit in duration"
          else
            match durUnitNs u with
            | none => .error "unknown unit in duration"
            | some unit =>
              if v > (2 ^ 63 - 1) / unit then .error "invalid duration"
              else
                let v1 := v * unit
                let v2 := if f > 0 then v1 + f * unit / scale else v1
                if v2 > 2 ^ 63 then .error "invalid duration"
                else
                  let d2 := d + v2
                  if d2 > 2 ^ 63 then .error "invalid duration"
                  else parseDurLoop fuel d2 s3

/-- Models Go time.ParseDuration, used by set-ask on the duration flag:
an optional sign, the literal 0, or a non-empty sequence of
number-plus-unit components; yields signed nanoseconds. -/
def parseDuration (s : String) : Except String Int :=
  let cs := s.data
  let (neg, cs1) := match cs with
    | '-' :: rest => (true, rest)
    | '+' :: rest => (false, rest)
    | _ => (false, cs)
  if cs1 = ['0'] then .ok 0
  else if cs1.isEmpty then .error "invalid duration"
  else
    match parseDurLoop (cs1.length + 1) 0 cs1 with
    | .error e => .error e
    | .ok d =>
      if neg then .ok (-(d : Int))
      else if d > 2 ^ 63 - 1 then .error "invalid duration"
      else .ok (d : Int)

/-- Modelled from the spec: build.BlockDelay (seconds per chain epoch) is
referenced by market.go but its definition is not under src; spec section 8
property 5 fixes it at 25 seconds. -/
def blockDelay : Nat := 25

/-- Nanoseconds per chain epoch. -/
def epochNs : Nat := 1000000000 * blockDelay

/-- Models qty := dur.Seconds() / build.BlockDelay followed by the int64
truncation in abi.ChainEpoch(qty).  The float64 arithmetic of the source
is modelled as exact rational division of nanoseconds by nanoseconds per
epoch, truncated toward zero (Int.tdiv); this agrees with the source
whenever the float64 computation is exact, as at every input used in the
theorems below. -/
def durationToEpochs (ns : Int) : Int := Int.tdiv ns (Int.ofNat epochNs)

/-- Outcome of the set-ask command action, after the remote actor address
and sector size have been resolved successfully (they are inputs of the
model).  Each error constructor is one early return of the Action in
market.go, in source order; submit records the exact MarketSetAsk call. -/
inductive SetAskResult where
  | errDuration : SetAskResult
  | errMinParse : SetAskResult
  | errMinTooSmall : SetAskResult
  | errMaxParse : SetAskResult
  | errMaxExceedsSector : SetAskResult
  | submit (price : Nat) (durEpochs : Int) (minSize maxSize : Int) : SetAskResult
  deriving DecidableEq

/-- Models the Action of setAskCmd in market.go: parse the duration and
divide by the block delay, parse min-piece-size and reject values below
256, parse max-piece-size, default a zero maximum to the miner sector
size ssize, reject a maximum above the sector size, and otherwise call
MarketSetAsk with the price, epoch quantity and piece sizes. -/
def setAskAction (ssize price : Nat) (durationStr minStr maxStr : String) :
    SetAskResult :=
  match parseDuration durationStr with
  | .error _ => .errDuration
  | .ok dur =>
    let qty := durationToEpochs dur
    match ramInBytes minStr with
    | .error _ => .errMinParse
    | .ok minSize =>
      if minSize < 256 then .errMinTooSmall
      else
        match ramInBytes maxStr with
        | .error _ => .errMaxParse
        | .ok maxParsed =>
          let smax : Int := Int.ofNat ssize
          let maxSize := if maxParsed = 0 then smax else maxParsed
          if maxSize > smax then .errMaxExceedsSector
          else .submit price qty minSize maxSize

/-- The fraction printer fmtFrac of Go time: prints prec digits of v from
the least significant end, omitting trailing zeros and the dot when every
digit is zero; returns the fraction text and v shifted down by prec
digits. -/
def fmtFracAux : Nat → Nat → Bool → String → String × Nat
  | 0, v, started, acc => (if started then "." ++ acc else acc, v)
  | prec + 1, v, started, acc =>
    let digit := v % 10
    let started2 := started || digit != 0
    let acc2 := if started2 then toString digit ++ acc else acc
    fmtFracAux prec (v / 10) started2 acc2

/-- Entry point of the fraction printer. -/
def fmtFrac (v : Nat) (prec : Nat) : String × Nat :=
  fmtFracAux prec v false ""

/-- Models Go time.Duration.String, used by get-ask to render the
remaining validity time: sub-second durations use ns, micro or ms units
with a fraction; larger ones are seconds, minutes and hours with a
fractional second part when present. -/
def goDurationString (d : Int) : String :=
  let u := d.natAbs
  let body :=
    if u < 1000000000 then
      if u = 0 then "0s"
      else if u < 1000 then toString u ++ "ns"
      else if u < 1000000 then
        let (frac, v) := fmtFrac u 3
        toString v ++ frac ++ "µs"
      else
        let (frac, v) := fmtFrac u 6
        toString v ++ frac ++ "ms"
    else
      let (frac, v) := fmtFrac u 9
      let sPart := toString (v % 60) ++ frac ++ "s"
      let m := v / 60
      if m = 0 then sPart
      else
        let mPart := toString (m % 60) ++ "m" ++ sPart
        let h := m / 60
        if h = 0 then mPart else toString h ++ "h" ++ mPart
  if d < 0 then "-" ++ body else body

/-- The published ask as read back by get-ask (storagemarket.StorageAsk:
Price is set from a uint64 by this CLI, MinPieceSize, MaxPieceSize and
SeqNo are uint64, Expiry is a signed chain epoch). -/
structure StorageAsk where
  price : Nat
  minPieceSize : Nat
  maxPieceSize : Nat
  expiry : Int
  seqNo : Nat

/-- Models the remaining-time cell of get-ask: dlt := ask.Expiry minus the
chain head height; the literal <expired> unless dlt is positive, in which
case time.Second * (dlt * build.BlockDelay) rendered by Duration.String. -/
def remainingTimeDisplay (expiry height : Int) : String :=
  let dlt := expiry - height
  if dlt > 0 then goDurationString (dlt * Int.ofNat blockDelay * 1000000000)
  else "<expired>"

/-- The header row printed by get-ask (tab-separated cells of the
tabwriter, one list element per cell). -/
def headerRow : List String :=
  ["Price per GiB / Epoch", "Min. Piece Size (w/bit-padding)",
   "Max. Piece Size (w/bit-padding)", "Expiry (Epoch)",
   "Expiry (Appx. Rem. Time)", "Seq. No."]

/-- The row printed by get-ask when the market service has no ask. -/
def noAskRow : List String := ["<miner does not have an ask>"]

/-- The populated ask row of get-ask.  sizeStr abstracts types.SizeStr
(lotus chain/types, not under src), the human size formatter used for the
two piece-size cells; the other cells print the numbers directly. -/
def askRow (sizeStr : Nat → String) (a : StorageAsk) (height : Int) :
    List String :=
  [toString a.price, sizeStr a.minPieceSize, sizeStr a.maxPieceSize,
   toString a.expiry, remainingTimeDisplay a.expiry height, toString a.seqNo]

/-- Models the Action of getAskCmd in market.go: when the market service
reports no ask, the command prints the header row and the no-ask row and
returns without error, never consulting the chain head; otherwise it
needs the chain head (an Except input: the remote call may fail) and
prints the header row and the populated ask row. -/
def getAskAction (sizeStr : Nat → String) (ask : Option StorageAsk)
    (chainHead : Except String Int) : Except String (List (List String)) :=
  match ask with
  | none => .ok [headerRow, noAskRow]
  | some a =>
    match chainHead with
    | .error e => .error e
    | .ok height => .ok [headerRow, askRow sizeStr a height]

/-- Outcome of the deals import-data command action: an argument count
error, a proposal identifier that cid.Decode rejected (no remote
DealsImportData call is recorded), or the DealsImportData call with the
decoded identifier and the file path. -/
inductive ImportDataResult (α : Type) where
  | errArgCount : ImportDataResult α
  | errMalformedCid (msg : String) : ImportDataResult α
  | importCall (propCid : α) (filePath : String) : ImportDataResult α
  deriving DecidableEq

/-- Models the Action of dealsImportDataCmd in market.go: require two
positional arguments, decode the first with cid.Decode (the go-cid
library, abstracted as the cidDecode input over an arbitrary identifier
type), and only on success call DealsImportData with the decoded
identifier and the second argument. -/
def dealsImportDataAction {α : Type} (cidDecode : String → Except String α)
    (args : List String) : ImportDataResult α :=
  if args.length < 2 then .errArgCount
  else
    match cidDecode (args.getD 0 "") with
    | .error e => .errMalformedCid e
    | .ok c => .importCall c (args.getD 1 "")

/-- Claim C1: the spec requires set-ask to fail with InvalidPieceRange
whenever minBytes is above maxBytes, but the code performs no such check:
with sector size 32 GiB, min-piece-size 512B and max-piece-size 256B
(each otherwise valid, the minimum at least 256 and the maximum within
the sector size) the ask is submitted to the market service with a
minimum piece size of 512 strictly above the maximum of 256. -/
theorem setAsk_min_above_max_submits :
    setAskAction 34359738368 5 "720h0m0s" "512B" "256B" =
      SetAskResult.submit 5 103680 512 256 ∧ (256 : Int) < 512 :=
  ⟨rfl, by decide⟩

/-- Claim C2: whenever the parsed max-piece-size is the sentinel zero and
the earlier steps succeed, the maximum piece size submitted to the market
service is exactly the resolved sector size. -/
theorem setAsk_zero_max_defaults_to_sector_size
    (ssize price : Nat) (durationStr minStr maxStr : String)
    (dur minSize : Int)
    (hdur : parseDuration durationStr = .ok dur)
    (hmin : ramInBytes minStr = .ok minSize)
    (hminOk : ¬ minSize < 256)
    (hmax : ramInBytes maxStr = .ok 0) :
    setAskAction ssize price durationStr minStr maxStr =
      SetAskResult.submit price (durationToEpochs dur) minSize
        (Int.ofNat ssize) := by
  simp [setAskAction, hdur, hmin, hminOk, hmax]

/-- Witness for claim C2 at sector size 1024 with max-piece-size 0. -/
theorem setAsk_zero_max_defaults_witness :
    setAskAction 1024 5 "720h0m0s" "256B" "0" =
      SetAskResult.submit 5 103680 256 1024 := by
  have h := setAsk_zero_max_defaults_to_sector_size 1024 5 "720h0m0s" "256B"
    "0" 2592000000000000 256 rfl rfl (by decide) rfl
  exact h

/-- Claim C3: whenever the parsed min-piece-size is strictly below 256 (and
the duration parsed, which the code does first), set-ask fails with the
256-byte-minimum error, whatever the max-piece-size string is, and no ask
is submitted. -/
theorem setAsk_min_below_256_fails
    (ssize price : Nat) (durationStr minStr maxStr : String)
    (dur minSize : Int)
    (hdur : parseDuration durationStr = .ok dur)
    (hmin : ramInBytes minStr = .ok minSize)
    (hsmall : minSize < 256) :
    setAskAction ssize price durationStr minStr maxStr =
      SetAskResult.errMinTooSmall := by
  simp [setAskAction, hdur, hmin, hsmall]

/-- Witness for claim C3 with min-piece-size 100B and an unparseable
max-piece-size string. -/
theorem setAsk_min_below_256_fails_witness :
    setAskAction 1024 5 "720h0m0s" "100B" "abc" =
      SetAskResult.errMinTooSmall :=
  setAsk_min_below_256_fails 1024 5 "720h0m0s" "100B" "abc"
    2592000000000000 100 rfl rfl (by decide)

/-- Claim C4: whenever the parsed max-piece-size is strictly above the
resolved sector size (reaching the max parse requires the min check to
have passed, which the hypotheses encode), set-ask fails with the
exceeds-sector-size error and no ask is submitted. -/
theorem setAsk_max_exceeds_capacity_fails
    (ssize price : Nat) (durationStr minStr maxStr : String)
    (dur minSize maxSize : Int)
    (hdur : parseDuration durationStr = .ok dur)
    (hmin : ramInBytes minStr = .ok minSize)
    (hminOk : ¬ minSize < 256)
    (hmax : ramInBytes maxStr = .ok maxSize)
    (hbig : maxSize > Int.ofNat ssize) :
    setAskAction ssize price durationStr minStr maxStr =
      SetAskResult.errMaxExceedsSector := by
  have hnz : ¬ maxSize = 0 := by
    intro h0
    rw [h0] at hbig
    exact absurd hbig (not_lt.mpr (Int.ofNat_nonneg ssize))
  simp [setAskAction, hdur, hmin, hminOk, hmax, hnz]
  exact hbig

/-- Witness for claim C4 at sector size 1024 with max-piece-size 32GiB. -/
theorem setAsk_max_exceeds_capacity_witness :
    setAskAction 1024 5 "720h0m0s" "256B" "32GiB" =
      SetAskResult.errMaxExceedsSector :=
  setAsk_max_exceeds_capacity_fails 1024 5 "720h0m0s" "256B" "32GiB"
    2592000000000000 256 34359738368 rfl rfl (by decide) rfl (by decide)

/-- Claim C5: the duration 720h0m0s parses to 2592000000000000
nanoseconds, its epoch count with a 25-second block delay is exactly
720 * 3600 / 25 = 103680, and the conversion truncates toward zero: for
every nanosecond count the epoch count is the sign times the floor
division of the absolute value by the nanoseconds per epoch. -/
theorem duration_to_epochs_spec :
    parseDuration "720h0m0s" = .ok 2592000000000000 ∧
    durationToEpochs 2592000000000000 = 103680 ∧
    ∀ ns : Int, durationToEpochs ns = ns.sign * Int.ofNat (ns.natAbs / epochNs) := by
  refine ⟨rfl, rfl, ?_⟩
  intro ns
  cases ns with
  | ofNat m =>
    cases m with
    | zero => decide
    | succ n =>
      show Int.ofNat ((n + 1) / epochNs) = 1 * Int.ofNat ((n + 1) / epochNs)
      rw [one_mul]
  | negSucc m =>
    show -Int.ofNat ((m + 1) / epochNs) = -1 * Int.ofNat ((m + 1) / epochNs)
    rw [neg_one_mul]

/-- Claim C6 counterexample: with expiry epoch 100 and chain height 150
the remaining-time cell is the literal string <expired> in angle
brackets, not the bare literal the claim names. -/
theorem remaining_time_sentinel_counterexample :
    remainingTimeDisplay 100 150 = "<expired>" ∧
    remainingTimeDisplay 100 150 ≠ "expired" :=
  ⟨rfl, by decide⟩

/-- Claim C6 (amended): the remaining epochs are expiry minus height; when
they are at most zero the remaining-time cell is the literal <expired>,
and when positive it is that count times the block delay in seconds
rendered by the Go duration formatter. -/
theorem remaining_time_display_spec (expiry height : Int) :
    (expiry - height ≤ 0 → remainingTimeDisplay expiry height = "<expired>") ∧
    (0 < expiry - height →
      remainingTimeDisplay expiry height =
        goDurationString ((expiry - height) * Int.ofNat blockDelay * 1000000000)) := by
  constructor
  · intro h
    simp [remainingTimeDisplay, not_lt.mpr h]
  · intro h
    simp [remainingTimeDisplay, h]

/-- Witness for claim C6: expiry 100 against height 150 renders the
expired sentinel, and against height 90 renders 10 * 25 = 250 seconds as
4m10s. -/
theorem remaining_time_display_witness :
    remainingTimeDisplay 100 150 = "<expired>" ∧
    remainingTimeDisplay 100 90 = "4m10s" := by
  constructor
  · exact (remaining_time_display_spec 100 150).1 (by decide)
  · have h := (remaining_time_display_spec 100 90).2 (by decide)
    rw [h]
    rfl

/-- Claim C7 counterexample: with no published ask the output is two rows,
the fixed header row and then the no-ask row, so the whole output is not
the single no-ask line the claim states. -/
theorem get_ask_no_ask_two_rows :
    getAskAction (fun n => toString n) none (.ok 0) =
      .ok [headerRow, noAskRow] ∧
    [headerRow, noAskRow].length ≠ 1 :=
  ⟨rfl, by decide⟩

/-- Claim C7 (amended): when the market service reports no ask, get-ask
succeeds whatever the chain head call would return (it is never made),
and its output is the header row followed by the single no-ask row. -/
theorem get_ask_no_ask_succeeds (sizeStr : Nat → String)
    (chainHead : Except String Int) :
    getAskAction sizeStr none chainHead = .ok [headerRow, noAskRow] := rfl

/-- Claim C8: the size parser maps 256B to 256 and 32GiB to 32 * 2 ^ 30,
fails on the malformed string abc, and a malformed min-piece-size makes
set-ask abort with the parse error before any submission, for every
sector size, price and max-piece-size string. -/
theorem size_unit_parse_spec :
    ramInBytes "256B" = .ok 256 ∧
    ramInBytes "32GiB" = .ok 34359738368 ∧
    ramInBytes "abc" = .error "invalid size" ∧
    ∀ ssize price maxStr,
      setAskAction ssize price "720h0m0s" "abc" maxStr =
        SetAskResult.errMinParse := by
  refine ⟨rfl, rfl, rfl, ?_⟩
  intro ssize price maxStr
  rfl

/-- Claim C9: with both positional arguments present, whenever cid.Decode
rejects the proposal identifier the command fails with that decode error
and the DealsImportData market call is never issued, for every decoder
and argument list. -/
theorem import_data_malformed_cid_no_call {α : Type}
    (cidDecode : String → Except String α) (args : List String) (e : String)
    (hlen : ¬ args.length < 2)
    (hdec : cidDecode (args.getD 0 "") = .error e) :
    dealsImportDataAction cidDecode args =
      ImportDataResult.errMalformedCid e := by
  unfold dealsImportDataAction
  rw [if_neg hlen, hdec]

/-- Witness for claim C9 with a decoder that rejects every string. -/
theorem import_data_malformed_cid_witness :
    dealsImportDataAction
      (fun _ => (.error "malformed cid" : Except String Unit))
      ["QQQ", "data.car"] = ImportDataResult.errMalformedCid "malformed cid" :=
  import_data_malformed_cid_no_call (fun _ => .error "malformed cid")
    ["QQQ", "data.car"] "malformed cid" (by decide) rfl

/-- Claim C10: set-ask never checks the sign of the duration: the
parseable negative duration -1h passes every local validation and the ask
is submitted to the market service with the negative epoch count -144. -/
theorem setAsk_negative_duration_submitted :
    setAskAction 34359738368 5 "-1h" "256B" "32GiB" =
      SetAskResult.submit 5 (-144) 256 34359738368 ∧ (-144 : Int) < 0 :=
  ⟨rfl, by decide⟩

end LotusMarket
